import Mathlib

/-!
Verification of the portfolio analytics microservices of the
IS428-G2T3 repository.  Prices and weights are modelled as exact
rationals, dates as integer day numbers (days since 1970-01-01), so
that the arithmetic of the Python source (floats over pandas frames)
becomes exact field arithmetic.  Only the genuinely irrational
operations (square roots in volatility and Pearson correlation, the
fractional power in annualized return) live in the reals.
-/

/-- Calendar year of an integer day number (days since 1970-01-01),
civil-calendar conversion; models the pandas accessor dt.year used to
build the year column for the yearly-returns groupby. -/
def yearOf (z : ℤ) : ℤ :=
  let d := z + 719468
  let era := (if 0 ≤ d then d else d - 146096) / 146097
  let doe := d - era * 146097
  let yoe := (doe - doe / 1460 + doe / 36524 - doe / 146096) / 365
  let y := yoe + era * 400
  let doy := doe - (365 * yoe + yoe / 4 - yoe / 100)
  let mp := (5 * doy + 2) / 153
  let m := if mp < 10 then mp + 3 else mp - 9
  if m ≤ 2 then y + 1 else y

/-- One step of the running-maximum column: pandas Series.cummax. -/
def cummax_go (acc : ℚ) : List ℚ → List ℚ
  | [] => []
  | x :: xs => max acc x :: cummax_go (max acc x) xs

/-- Running maximum of a value series: the peak_value column. -/
def cummax : List ℚ → List ℚ
  | [] => []
  | x :: xs => x :: cummax_go x xs

/-- Tail of the percentage-change column, carrying the previous value. -/
def pct_change_go (prev : ℚ) : List ℚ → List (Option ℚ)
  | [] => []
  | y :: ys => some (y / prev - 1) :: pct_change_go y ys

/-- pandas Series.pct_change: none (NaN) on the first row, then
v[t]/v[t-1] - 1. -/
def pct_change : List ℚ → List (Option ℚ)
  | [] => []
  | x :: xs => none :: pct_change_go x xs

/-- Minimum of a value column (0 for an empty column); pandas Series.min
on the nonempty frames the services build. -/
def listMin : List ℚ → ℚ
  | [] => 0
  | x :: xs => xs.foldl min x

/-- The drawdown column: (total_value - peak_value) / peak_value. -/
def drawdowns (values : List ℚ) : List ℚ :=
  List.zipWith (fun v p => (v - p) / p) values (cummax values)

/-- Insert into a sorted list of years. -/
def insertSorted (a : ℤ) : List ℤ → List ℤ
  | [] => [a]
  | b :: bs => if a ≤ b then a :: b :: bs else b :: insertSorted a bs

/-- Ascending sort of the group keys, as pandas groupby sorts the unique
year keys. -/
def sortInts (l : List ℤ) : List ℤ := l.foldr insertSorted []

/-- Yearly returns of a (date, total_value) series: group rows by
calendar year of the date; a year with more than one row reports
last/first - 1 over its rows, otherwise 0.  Models the groupby-apply in
calculate_portfolio_value. -/
def yearly_returns (rows : List (ℤ × ℚ)) : List (ℤ × ℚ) :=
  let ys := sortInts ((rows.map (fun r => yearOf r.1)).dedup)
  ys.map (fun y =>
    match rows.filter (fun r => decide (yearOf r.1 = y)) with
    | [] => (y, 0)
    | h :: t =>
        (y, if 1 < (h :: t).length
            then ((h :: t).getLast (List.cons_ne_nil h t)).2 / h.2 - 1
            else 0))

namespace HighLT

/-- A row of the highLTetf.csv table: trading date plus the close
prices of the four instruments of getPortfolioHighLT.py. -/
structure EtfRow where
  date : ℤ
  spy : ℚ
  gbtc : ℚ
  brkb : ℚ
  vug : ℚ
deriving DecidableEq

/-- The fixed instrument universe iterated over by the service. -/
def etfs : List String := ["SPY", "GBTC", "BRK-B", "VUG"]

/-- Column access by ticker name. -/
def price (r : EtfRow) (etf : String) : ℚ :=
  if etf = "SPY" then r.spy
  else if etf = "GBTC" then r.gbtc
  else if etf = "BRK-B" then r.brkb
  else r.vug

/-- An allocations dict: association list from ticker to weight. -/
abbrev Alloc := List (String × ℚ)

/-- allocations.get(etf, 0): lookup with default 0. -/
def aget (alloc : Alloc) (etf : String) : ℚ := (alloc.lookup etf).getD 0

/-- sum(allocations.values()). -/
def allocSum (alloc : Alloc) : ℚ := (alloc.map Prod.snd).sum

/-- Combined weight the four instruments of the universe receive. -/
def fourSum (alloc : Alloc) : ℚ := (etfs.map (aget alloc)).sum

/-- Normalized growth factor of one instrument: price divided by the
first-row price when that is positive, else the constant 1.0. -/
def etf_norm (first r : EtfRow) (etf : String) : ℚ :=
  if 0 < price first etf then price r etf / price first etf else 1

/-- Value contributed by one instrument on one row: 0 when the
allocation is 0, else the allocated investment times the normalized
growth factor. -/
def etf_value (first r : EtfRow) (init : ℚ) (alloc : Alloc) (etf : String) : ℚ :=
  if aget alloc etf = 0 then 0
  else init * (aget alloc etf / 100) * etf_norm first r etf

/-- The total_value cell of one row: sum of the four instrument value
columns. -/
def total_value_row (first r : EtfRow) (init : ℚ) (alloc : Alloc) : ℚ :=
  etf_value first r init alloc "SPY" + etf_value first r init alloc "GBTC" +
    etf_value first r init alloc "BRK-B" + etf_value first r init alloc "VUG"

/-- The total_value column over the filtered rows, normalizing against
the first row of the range. -/
def total_values (rows : List EtfRow) (init : ℚ) (alloc : Alloc) : List ℚ :=
  match rows with
  | [] => []
  | first :: _ => rows.map (fun r => total_value_row first r init alloc)

/-- filter_data_by_date of getPortfolioHighLT.py, after date parsing:
clamp the start bound up to the dataset minimum, the end bound down to
the dataset maximum, swap the bounds if still reversed, then keep the
rows whose date lies in the closed interval. -/
def filter_data_by_date (table : List EtfRow) (minD maxD s e : ℤ) :
    List EtfRow × ℤ × ℤ :=
  let s1 := if s < minD then minD else s
  let e1 := if maxD < e then maxD else e
  let p := if e1 < s1 then (e1, s1) else (s1, e1)
  (table.filter (fun r => decide (p.1 ≤ r.date ∧ r.date ≤ p.2)), p.1, p.2)

/-- The error responses process_request_data can return. -/
inductive ReqError where
  | invalidAllocation (total : ℚ)
  | emptyRange
deriving DecidableEq

/-- process_request_data of getPortfolioHighLT.py after JSON
extraction: reject when the allocation sum is more than 0.01 away from
100 (reporting the computed sum), else date-filter, reject an empty
range, else build the portfolio value series and yearly returns from
the weights exactly as given. -/
def process_request_data (table : List EtfRow) (minD maxD : ℤ) (init : ℚ)
    (alloc : Alloc) (s e : ℤ) :
    Except ReqError (List EtfRow × List ℚ × List (ℤ × ℚ)) :=
  if 1 / 100 < |allocSum alloc - 100| then
    .error (.invalidAllocation (allocSum alloc))
  else
    let f := filter_data_by_date table minD maxD s e
    if f.1 = [] then .error .emptyRange
    else
      let values := total_values f.1 init alloc
      .ok (f.1, values, yearly_returns ((f.1.map EtfRow.date).zip values))

end HighLT

namespace LowLT

/-- A row of the lowLTetf.csv table of getPortfolioLowLT.py. -/
structure Row where
  date : ℤ
  spy : ℚ
  bnd : ℚ
  vtip : ℚ
  vxus : ℚ
deriving DecidableEq

/-- filter_data_by_date of getPortfolioLowLT.py, after date parsing: the
raw bounds are applied directly; there is no clamping to the dataset
range and no swap of reversed bounds. -/
def filter_data_by_date (table : List Row) (s e : ℤ) : List Row × ℤ × ℤ :=
  (table.filter (fun r => decide (s ≤ r.date ∧ r.date ≤ e)), s, e)

end LowLT

/-- Non-null samples of the daily_return column: what pandas
Series.std averages over after skipping NaN. -/
def daily_samples (values : List ℚ) : List ℚ := (pct_change values).filterMap id

/-- Sample variance with ddof 1, exact over the rationals. -/
def sample_var (xs : List ℚ) : ℚ :=
  let n : ℚ := xs.length
  let m := xs.sum / n
  (xs.map (fun x => (x - m) ^ 2)).sum / (n - 1)

/-- Variance underlying daily_return.std(): defined (some) exactly when
there are at least 2 non-null samples, none otherwise (pandas std
returns NaN there). -/
def std_core (values : List ℚ) : Option ℚ :=
  if (daily_samples values).length < 2 then none
  else some (sample_var (daily_samples values))

/-- Elapsed years between first and last date of the frame:
(end - start).days / 365.25. -/
def years_of (dates : List ℤ) : ℚ :=
  ((dates.getLast?.getD 0 - dates.head?.getD 0 : ℤ) : ℚ) / 365.25

namespace HighLT

/-- Annualized standard deviation of daily returns:
daily_return.std() * sqrt(252), and 0 when the std is NaN. -/
noncomputable def volatility_of (values : List ℚ) : ℝ :=
  match std_core values with
  | none => 0
  | some v => Real.sqrt (v : ℝ) * Real.sqrt 252

/-- final/initial - 1 over the total_value column. -/
def total_return_of (values : List ℚ) : ℚ :=
  (values.getLast?.getD 0) / (values.head?.getD 0) - 1

/-- (1 + total_return) ** (1/years) - 1, guarded by years > 0. -/
noncomputable def annualized_return_of (dates : List ℤ) (values : List ℚ) : ℝ :=
  if 0 < years_of dates then
    ((1 : ℝ) + (total_return_of values : ℝ)) ^ ((1 : ℝ) / (years_of dates : ℝ)) - 1
  else 0

/-- The risk tier assigned from annualized volatility in
calculate_risk_metrics (lines 214-224). -/
noncomputable def risk_level_of (v : ℝ) : String :=
  if v < 5 / 100 then "Very Low"
  else if v < 10 / 100 then "Low"
  else if v < 15 / 100 then "Moderate"
  else if v < 20 / 100 then "High"
  else "Very High"

/-- The scalar summary dict returned by calculate_risk_metrics. -/
structure RiskMetrics where
  initial_value : ℚ
  final_value : ℚ
  total_return : ℚ
  annualized_return : ℝ
  max_drawdown : ℚ
  volatility : ℝ
  risk_level : String
  sharpe : ℝ
  years : ℚ

/-- calculate_risk_metrics of getPortfolioHighLT.py over the dates and
total_value column of a portfolio frame. -/
noncomputable def calculate_risk_metrics (dates : List ℤ) (values : List ℚ) :
    RiskMetrics where
  initial_value := values.head?.getD 0
  final_value := values.getLast?.getD 0
  total_return := total_return_of values
  annualized_return := annualized_return_of dates values
  max_drawdown := listMin (drawdowns values)
  volatility := volatility_of values
  risk_level := risk_level_of (volatility_of values)
  sharpe :=
    if 0 < volatility_of values then
      (annualized_return_of dates values - 2 / 100) / volatility_of values
    else 0
  years := years_of dates

/-- C4: calculate_risk_metrics guards its divisions: a non-positive
elapsed-years window yields annualized_return 0, fewer than 2 non-null
daily-return samples yield volatility 0, and zero volatility yields
sharpe ratio 0, so none of the three divisions can divide by zero. -/
theorem c4_risk_metric_guards (dates : List ℤ) (values : List ℚ)
    (hne : values ≠ []) (hpos : ∀ v ∈ values, 0 < v) :
    (years_of dates ≤ 0 →
      (calculate_risk_metrics dates values).annualized_return = 0) ∧
    ((daily_samples values).length < 2 →
      (calculate_risk_metrics dates values).volatility = 0) ∧
    ((calculate_risk_metrics dates values).volatility = 0 →
      (calculate_risk_metrics dates values).sharpe = 0) := by
  refine ⟨?_, ?_, ?_⟩
  · intro h
    show annualized_return_of dates values = 0
    rw [annualized_return_of, if_neg (not_lt.mpr h)]
  · intro h
    have hs : std_core values = none := by rw [std_core, if_pos h]
    show volatility_of values = 0
    rw [volatility_of, hs]
  · intro h
    have h0 : volatility_of values = 0 := h
    show (if 0 < volatility_of values then
      (annualized_return_of dates values - 2 / 100) / volatility_of values
      else 0) = 0
    rw [h0, if_neg (lt_irrefl (0 : ℝ))]

/-- C4 witness: a one-row series has zero elapsed years, no daily
return samples, hence all three guards fire. -/
theorem c4_risk_metric_guards_witness :
    (calculate_risk_metrics [0] [100]).annualized_return = 0 ∧
    (calculate_risk_metrics [0] [100]).volatility = 0 ∧
    (calculate_risk_metrics [0] [100]).sharpe = 0 := by
  have h := c4_risk_metric_guards [0] [100] (by decide) (by decide)
  have h2 := h.2.1 (by decide)
  exact ⟨h.1 (by norm_num [years_of]), h2, h.2.2 h2⟩

/-- C9: the risk tier is determined by half-open volatility bands:
Very Low below 5 percent, Low in [5, 10), Moderate in [10, 15), High in
[15, 20), Very High from 20 percent on. -/
theorem c9_risk_level_tiers (v : ℝ) (hv : 0 ≤ v) :
    (risk_level_of v = "Very Low" ↔ v < 5 / 100) ∧
    (risk_level_of v = "Low" ↔ 5 / 100 ≤ v ∧ v < 10 / 100) ∧
    (risk_level_of v = "Moderate" ↔ 10 / 100 ≤ v ∧ v < 15 / 100) ∧
    (risk_level_of v = "High" ↔ 15 / 100 ≤ v ∧ v < 20 / 100) ∧
    (risk_level_of v = "Very High" ↔ 20 / 100 ≤ v) := by
  rw [risk_level_of]
  split_ifs with h1 h2 h3 h4 <;>
    (try simp only [not_lt] at h1) <;> (try simp only [not_lt] at h2) <;>
    (try simp only [not_lt] at h3) <;> (try simp only [not_lt] at h4) <;>
    refine ⟨?_, ?_, ?_, ?_, ?_⟩ <;> constructor <;> intro hx <;>
    first
      | rfl
      | exact absurd hx (by decide)
      | linarith
      | (constructor <;> linarith)
      | (exfalso; rcases hx with ⟨ha, hb⟩; linarith)
      | (exfalso; linarith)

/-- C9 witness: volatility exactly 5 percent is classified Low, not
Very Low. -/
theorem c9_risk_level_tiers_witness : risk_level_of (1 / 20 : ℝ) = "Low" :=
  ((c9_risk_level_tiers (1 / 20) (by norm_num)).2.1).mpr (by norm_num)

end HighLT

theorem mem_insertSorted (a x : ℤ) (l : List ℤ) :
    x ∈ insertSorted a l ↔ x = a ∨ x ∈ l := by
  induction l with
  | nil => simp [insertSorted]
  | cons b bs ih =>
    rw [insertSorted]
    split_ifs with h
    · simp [List.mem_cons]
    · simp only [List.mem_cons, ih]
      tauto

theorem sortInts_cons (b : ℤ) (bs : List ℤ) :
    sortInts (b :: bs) = insertSorted b (sortInts bs) := rfl

theorem mem_sortInts (x : ℤ) (l : List ℤ) : x ∈ sortInts l ↔ x ∈ l := by
  induction l with
  | nil => simp [sortInts]
  | cons b bs ih =>
    rw [sortInts_cons, mem_insertSorted, ih, List.mem_cons]

/-- C6: the yearly-returns table of a (date, total_value) series covers
exactly the calendar years occurring among the rows, and the value
reported for a year is last/first - 1 over that year's rows when the
year has at least 2 rows in range, and the defined value 0 (never NaN)
when it has fewer. -/
theorem c6_yearly_returns_by_calendar_year (rows : List (ℤ × ℚ)) :
    (∀ y : ℤ, (∃ r, (y, r) ∈ yearly_returns rows) ↔
      ∃ row ∈ rows, yearOf row.1 = y) ∧
    (∀ y r, (y, r) ∈ yearly_returns rows →
      r = if 2 ≤ (rows.filter (fun row => decide (yearOf row.1 = y))).length
          then ((rows.filter (fun row => decide (yearOf row.1 = y))).getLast?.getD (0, 0)).2 /
            ((rows.filter (fun row => decide (yearOf row.1 = y))).head?.getD (0, 0)).2 - 1
          else 0) := by
  constructor
  · intro y
    constructor
    · rintro ⟨r, hr⟩
      rw [yearly_returns] at hr
      obtain ⟨y', hy', hfy⟩ := List.mem_map.mp hr
      have hyy : y' = y := by
        rcases hmatch : rows.filter (fun row => decide (yearOf row.1 = y')) with _ | ⟨h, t⟩ <;>
          rw [hmatch] at hfy <;> exact (Prod.mk.injEq _ _ _ _).mp hfy |>.1
      subst hyy
      rw [mem_sortInts, List.mem_dedup] at hy'
      obtain ⟨row, hrow, hy⟩ := List.mem_map.mp hy'
      exact ⟨row, hrow, hy⟩
    · rintro ⟨row, hrow, hy⟩
      rw [yearly_returns]
      have hy' : y ∈ sortInts ((rows.map (fun r => yearOf r.1)).dedup) := by
        rw [mem_sortInts, List.mem_dedup]
        exact List.mem_map.mpr ⟨row, hrow, hy⟩
      rcases hmatch : rows.filter (fun row => decide (yearOf row.1 = y)) with _ | ⟨h, t⟩
      · exact ⟨0, List.mem_map.mpr ⟨y, hy', by rw [hmatch]⟩⟩
      · exact ⟨if 1 < (h :: t).length
            then ((h :: t).getLast (List.cons_ne_nil h t)).2 / h.2 - 1 else 0,
          List.mem_map.mpr ⟨y, hy', by rw [hmatch]⟩⟩
  · intro y r hr
    rw [yearly_returns] at hr
    obtain ⟨y', hy', hfy⟩ := List.mem_map.mp hr
    rcases hmatch : rows.filter (fun row => decide (yearOf row.1 = y')) with _ | ⟨h, t⟩ <;>
      rw [hmatch] at hfy
    · obtain ⟨h1, h2⟩ := (Prod.mk.injEq _ _ _ _).mp hfy
      subst h1
      rw [hmatch]
      simp [← h2]
    · obtain ⟨h1, h2⟩ := (Prod.mk.injEq _ _ _ _).mp hfy
      subst h1
      rw [hmatch]
      by_cases hlen : 2 ≤ (h :: t).length
      · rw [if_pos hlen, ← h2, if_pos (by omega : 1 < (h :: t).length)]
        rw [List.getLast?_eq_getLast _ (List.cons_ne_nil h t)]
        simp
      · rw [if_neg hlen, ← h2,
          if_neg (by omega : ¬ 1 < (h :: t).length)]

/-- C6 witness: a range holding one 1970 row and one 1971 row reports 0
for 1970 (a single-row year), matching the under-2-rows formula. -/
theorem c6_yearly_returns_by_calendar_year_witness :
    (0 : ℚ) = if 2 ≤ ([((0 : ℤ), (100 : ℚ)), (400, 120)].filter
        (fun row => decide (yearOf row.1 = 1970))).length
      then (([((0 : ℤ), (100 : ℚ)), (400, 120)].filter
          (fun row => decide (yearOf row.1 = 1970))).getLast?.getD (0, 0)).2 /
        (([((0 : ℤ), (100 : ℚ)), (400, 120)].filter
          (fun row => decide (yearOf row.1 = 1970))).head?.getD (0, 0)).2 - 1
      else 0 :=
  (c6_yearly_returns_by_calendar_year [((0 : ℤ), (100 : ℚ)), (400, 120)]).2
    1970 0 (by decide)

/-- C5 (amended, for getPortfolioHighLT only): the HighLT filter never
rejects for bound ordering or coverage: its selected rows are exactly
the rows of the interval obtained by ordering the two parseable bounds
and clamping each into the dataset range, it is empty only when that
clamped interval holds no row date, and a range lying entirely before
the dataset minimum still selects the minimum-date row.  (The LowLT
filter lacks the swap and clamp; see the counterexample.) -/
theorem c5_highlt_filter_clamps_and_swaps (table : List HighLT.EtfRow)
    (minD maxD s e : ℤ)
    (hmin₁ : minD ∈ table.map HighLT.EtfRow.date)
    (hmin₂ : ∀ d ∈ table.map HighLT.EtfRow.date, minD ≤ d)
    (hmax₁ : maxD ∈ table.map HighLT.EtfRow.date)
    (hmax₂ : ∀ d ∈ table.map HighLT.EtfRow.date, d ≤ maxD) :
    ((HighLT.filter_data_by_date table minD maxD s e).1 =
      table.filter (fun r => decide (max minD (min (min s e) maxD) ≤ r.date ∧
        r.date ≤ max minD (min (max s e) maxD)))) ∧
    ((HighLT.filter_data_by_date table minD maxD s e).1 = [] ↔
      ∀ r ∈ table, ¬ (max minD (min (min s e) maxD) ≤ r.date ∧
        r.date ≤ max minD (min (max s e) maxD))) ∧
    (max s e < minD → (HighLT.filter_data_by_date table minD maxD s e).1 ≠ []) := by
  have hmm : minD ≤ maxD := hmin₂ maxD hmax₁
  have ha : (HighLT.filter_data_by_date table minD maxD s e).1 =
      table.filter (fun r => decide (max minD (min (min s e) maxD) ≤ r.date ∧
        r.date ≤ max minD (min (max s e) maxD))) := by
    rw [HighLT.filter_data_by_date]
    refine List.filter_congr ?_
    intro r hr
    have h1 : minD ≤ r.date := hmin₂ r.date (List.mem_map.mpr ⟨r, hr, rfl⟩)
    have h2 : r.date ≤ maxD := hmax₂ r.date (List.mem_map.mpr ⟨r, hr, rfl⟩)
    rw [decide_eq_decide]
    split_ifs <;> constructor <;> rintro ⟨ha, hb⟩ <;> exact ⟨by omega, by omega⟩
  refine ⟨ha, ?_, ?_⟩
  · rw [ha, List.filter_eq_nil_iff]
    constructor
    · intro h r hr
      have := h r hr
      rwa [decide_eq_true_eq] at this
    · intro h r hr
      rw [decide_eq_true_eq]
      exact h r hr
  · intro hlt hnil
    obtain ⟨r0, hr0, hd0⟩ := List.mem_map.mp hmin₁
    have hmem : r0 ∈ table.filter (fun r =>
        decide (max minD (min (min s e) maxD) ≤ r.date ∧
          r.date ≤ max minD (min (max s e) maxD))) := by
      refine List.mem_filter.mpr ⟨hr0, ?_⟩
      rw [decide_eq_true_eq, hd0]
      omega
    rw [ha] at hnil
    rw [hnil] at hmem
    exact absurd hmem (List.not_mem_nil r0)

/-- C5 witness: a dataset over days 0..5 queried with the reversed,
out-of-range bounds start 7 and end -3 still selects rows. -/
theorem c5_highlt_filter_clamps_and_swaps_witness :
    (HighLT.filter_data_by_date [⟨0, 1, 1, 1, 1⟩, ⟨5, 1, 1, 1, 1⟩] 0 5 (-10) (-3)).1 ≠ [] :=
  (c5_highlt_filter_clamps_and_swaps [⟨0, 1, 1, 1, 1⟩, ⟨5, 1, 1, 1, 1⟩] 0 5 (-10) (-3)
    (by decide) (by decide) (by decide) (by decide)).2.2 (by decide)

/-- C5 counterexample: the LowLT filter applies reversed bounds
directly: with start 2 and end 0 over days 0..2 it selects zero rows
(so the request fails with the empty-range error) even though the
swapped range selects all three rows. -/
theorem c5_lowlt_filter_rejects_reversed_bounds_cex :
    (LowLT.filter_data_by_date [⟨0, 1, 1, 1, 1⟩, ⟨1, 1, 1, 1, 1⟩, ⟨2, 1, 1, 1, 1⟩] 2 0).1 = [] ∧
    ([(⟨0, 1, 1, 1, 1⟩ : LowLT.Row), ⟨1, 1, 1, 1, 1⟩, ⟨2, 1, 1, 1, 1⟩].filter
      (fun r => decide (0 ≤ r.date ∧ r.date ≤ 2))).length = 3 := by
  decide

namespace Corr

/-- A close-price series: association list from date to close. -/
abbrev Series := List (ℤ × ℚ)

/-- One cell of the correlation matrix response. -/
structure Cell where
  source : String
  target : String
  correlation : ℝ

instance : Inhabited Cell := ⟨⟨"", "", 0⟩⟩

/-- The filtered_series dict of calculate_correlation_matrix: each
loaded series restricted to the date range, keeping only tickers whose
restriction is non-empty. -/
def filtered_series (data : List (String × Series)) (s e : ℤ) :
    List (String × Series) :=
  data.filterMap (fun p =>
    let f := p.2.filter (fun q => decide (s ≤ q.1 ∧ q.1 ≤ e))
    if f.isEmpty then none else some (p.1, f))

/-- Date-aligned observations of two series: the rows of the combined
frame on which both are non-null, keyed by date. -/
def alignedObs (x y : Series) : List (ℤ × ℚ × ℚ) :=
  x.filterMap (fun p => (y.lookup p.1).map (fun b => (p.1, p.2, b)))

/-- The paired values of the aligned observations. -/
def obsVals (x y : Series) : List (ℚ × ℚ) :=
  (alignedObs x y).map (fun t => (t.2.1, t.2.2))

/-- Rational core of the pandas Pearson computation on one pair of
columns: none models the NaN results (no overlapping observation, or a
zero divisor from a zero-variance column); some gives the covariance
numerator and the squared divisor. -/
def pearsonCore (ps : List (ℚ × ℚ)) : Option (ℚ × ℚ) :=
  let n : ℚ := ps.length
  if ps.length = 0 then none
  else
    let mx := (ps.map Prod.fst).sum / n
    let my := (ps.map Prod.snd).sum / n
    let sxx : ℚ := (ps.map (fun p => (p.1 - mx) ^ 2)).sum
    let syy : ℚ := (ps.map (fun p => (p.2 - my) ^ 2)).sum
    let sxy : ℚ := (ps.map (fun p => (p.1 - mx) * (p.2 - my))).sum
    if sxx * syy = 0 then none else some (sxy, sxx * syy)

/-- Pearson correlation of two aligned series as pandas df.corr
computes it: covariance over the square root of the product of the
squared deviations. -/
noncomputable def pearson (x y : Series) : Option ℝ :=
  (pearsonCore (obsVals x y)).map (fun q => (q.1 : ℝ) / Real.sqrt (q.2 : ℝ))

/-- calculate_correlation_matrix of getPortfolioCorrelation.py: with at
least two non-empty filtered series, build the matrix over the
requested tickers in order, emitting 1.0/0.0 rows for tickers absent
from the correlation frame and replacing NaN correlations by 0.0;
otherwise the degenerate matrix. -/
noncomputable def calculate_correlation_matrix (data : List (String × Series))
    (etfs : List String) (s e : ℤ) : List (List Cell) :=
  let fs := filtered_series data s e
  if 2 ≤ fs.length then
    etfs.map (fun src => etfs.map (fun tgt =>
      match fs.lookup src with
      | none => ⟨src, tgt, if src = tgt then 1 else 0⟩
      | some sx =>
        match fs.lookup tgt with
        | none => ⟨src, tgt, if src = tgt then 1 else 0⟩
        | some sy => ⟨src, tgt, (pearson sx sy).getD 0⟩))
  else
    etfs.map (fun src => etfs.map (fun tgt =>
      ⟨src, tgt, if src = tgt then 1 else 0⟩))

/-- Cell (i, j) of a matrix of cells. -/
def mentry (m : List (List Cell)) (i j : ℕ) : Cell :=
  (m.getD i []).getD j default

theorem lookup_eq_some_mem {α β : Type} [BEq α] [LawfulBEq α]
    {l : List (α × β)} {a : α} {b : β} (h : l.lookup a = some b) : (a, b) ∈ l := by
  induction l with
  | nil => simp [List.lookup] at h
  | cons p ps ih =>
    obtain ⟨k, v⟩ := p
    rw [List.lookup] at h
    cases hab : (a == k) with
    | false =>
      rw [hab] at h
      exact List.mem_cons_of_mem _ (ih h)
    | true =>
      rw [hab] at h
      injection h with h
      subst h
      have : a = k := eq_of_beq hab
      subst this
      exact List.mem_cons_self _ _

theorem mem_lookup_eq_some {α β : Type} [BEq α] [LawfulBEq α]
    {l : List (α × β)} {a : α} {b : β} (hnd : (l.map Prod.fst).Nodup)
    (h : (a, b) ∈ l) : l.lookup a = some b := by
  induction l with
  | nil => cases h
  | cons p ps ih =>
    obtain ⟨k, v⟩ := p
    rw [List.map_cons] at hnd
    rcases List.mem_cons.mp h with heq | hmem
    · injection heq with h1 h2
      subst h1
      subst h2
      rw [List.lookup, beq_self_eq_true]
    · have hk : (a == k) = false := by
        refine beq_eq_false_iff_ne.mpr ?_
        intro hak
        subst hak
        exact absurd (List.mem_map.mpr ⟨(a, b), hmem, rfl⟩)
          (List.nodup_cons.mp hnd).1
      rw [List.lookup, hk]
      exact ih (List.nodup_cons.mp hnd).2 hmem

theorem filterMap_eq_map_of {α β : Type} (f : α → Option β) (g : α → β)
    (l : List α) (h : ∀ a ∈ l, f a = some (g a)) : l.filterMap f = l.map g := by
  induction l with
  | nil => rfl
  | cons x xs ih =>
    rw [List.filterMap_cons, h x (List.mem_cons_self x xs), List.map_cons,
      ih (fun a ha => h a (List.mem_cons_of_mem x ha))]

theorem mem_alignedObs {x y : Series} {d : ℤ} {a b : ℚ} :
    (d, a, b) ∈ alignedObs x y ↔ (d, a) ∈ x ∧ y.lookup d = some b := by
  rw [alignedObs]
  constructor
  · intro h
    obtain ⟨p, hp, hsome⟩ := List.mem_filterMap.mp h
    obtain ⟨b', hb', heq⟩ := Option.map_eq_some'.mp hsome
    injection heq with h1 h23
    injection h23 with h2 h3
    subst h1
    subst h2
    subst h3
    exact ⟨Prod.mk.eta ▸ hp, hb'⟩
  · rintro ⟨hx, hy⟩
    exact List.mem_filterMap.mpr ⟨(d, a), hx, by rw [hy]; rfl⟩

theorem alignedObs_keys_sublist (x y : Series) :
    ((alignedObs x y).map (fun t => t.1)).Sublist (x.map Prod.fst) := by
  induction x with
  | nil => simp [alignedObs]
  | cons p ps ih =>
    rw [alignedObs, List.filterMap_cons]
    cases hl : (y.lookup p.1).map (fun b => (p.1, p.2, b)) with
    | none =>
      rw [List.map_cons]
      exact (ih :
        ((alignedObs ps y).map (fun t => t.1)).Sublist (ps.map Prod.fst)).cons _
    | some t =>
      obtain ⟨b', hb', heq⟩ := Option.map_eq_some'.mp hl
      rw [List.map_cons, List.map_cons, ← heq]
      exact (ih :
        ((alignedObs ps y).map (fun t => t.1)).Sublist (ps.map Prod.fst)).cons₂ _

theorem alignedObs_nodup (x y : Series) (hx : (x.map Prod.fst).Nodup) :
    (alignedObs x y).Nodup :=
  List.Nodup.of_map _ ((alignedObs_keys_sublist x y).nodup hx)

theorem alignedObs_swap_perm (x y : Series) (hx : (x.map Prod.fst).Nodup)
    (hy : (y.map Prod.fst).Nodup) :
    (alignedObs x y).Perm ((alignedObs y x).map (fun t => (t.1, t.2.2, t.2.1))) := by
  refine (List.perm_ext_iff_of_nodup (alignedObs_nodup x y hx) ?_).mpr ?_
  · refine List.Nodup.map ?_ (alignedObs_nodup y x hy)
    intro t1 t2 h
    injection h with h1 h23
    injection h23 with h2 h3
    exact Prod.ext h1 (Prod.ext h3 h2)
  · intro t
    obtain ⟨d, a, b⟩ := t
    rw [mem_alignedObs]
    constructor
    · rintro ⟨hmx, hly⟩
      refine List.mem_map.mpr ⟨(d, b, a), ?_, rfl⟩
      rw [mem_alignedObs]
      exact ⟨lookup_eq_some_mem hly, mem_lookup_eq_some hx hmx⟩
    · intro hmem
      obtain ⟨t', ht', heq⟩ := List.mem_map.mp hmem
      obtain ⟨d', b', a'⟩ := t'
      injection heq with h1 h23
      injection h23 with h2 h3
      subst h1
      subst h2
      subst h3
      rw [mem_alignedObs] at ht'
      exact ⟨lookup_eq_some_mem ht'.2, mem_lookup_eq_some hy ht'.1⟩

theorem pearsonCore_perm {ps qs : List (ℚ × ℚ)} (h : ps.Perm qs) :
    pearsonCore ps = pearsonCore qs := by
  simp only [pearsonCore]
  simp only [h.length_eq, (h.map Prod.fst).sum_eq, (h.map Prod.snd).sum_eq]
  rw [(h.map (fun p => (p.1 - (qs.map Prod.fst).sum / (qs.length : ℚ)) ^ 2)).sum_eq,
    (h.map (fun p => (p.2 - (qs.map Prod.snd).sum / (qs.length : ℚ)) ^ 2)).sum_eq,
    (h.map (fun p => (p.1 - (qs.map Prod.fst).sum / (qs.length : ℚ)) *
      (p.2 - (qs.map Prod.snd).sum / (qs.length : ℚ)))).sum_eq]

theorem pearsonCore_map_swap (ps : List (ℚ × ℚ)) :
    pearsonCore (ps.map (fun p => (p.2, p.1))) = pearsonCore ps := by
  have hfst : (ps.map (fun p : ℚ × ℚ => (p.2, p.1))).map Prod.fst =
      ps.map Prod.snd := by
    rw [List.map_map]; rfl
  have hsnd : (ps.map (fun p : ℚ × ℚ => (p.2, p.1))).map Prod.snd =
      ps.map Prod.fst := by
    rw [List.map_map]; rfl
  have hxx : ∀ A : ℚ, (ps.map (fun p : ℚ × ℚ => (p.2, p.1))).map
      (fun p => (p.1 - A) ^ 2) = ps.map (fun p => (p.2 - A) ^ 2) := by
    intro A; rw [List.map_map]; rfl
  have hyy : ∀ A : ℚ, (ps.map (fun p : ℚ × ℚ => (p.2, p.1))).map
      (fun p => (p.2 - A) ^ 2) = ps.map (fun p => (p.1 - A) ^ 2) := by
    intro A; rw [List.map_map]; rfl
  have hxy : ∀ A B : ℚ, (ps.map (fun p : ℚ × ℚ => (p.2, p.1))).map
      (fun p => (p.1 - A) * (p.2 - B)) =
      ps.map (fun p => (p.1 - B) * (p.2 - A)) := by
    intro A B
    rw [List.map_map]
    refine List.map_congr_left ?_
    intro p _
    show (p.2 - A) * (p.1 - B) = (p.1 - B) * (p.2 - A)
    ring
  simp only [pearsonCore, List.length_map, hfst, hsnd, hxx, hyy, hxy]
  by_cases h0 : ps.length = 0
  · rw [if_pos h0, if_pos h0]
  · rw [if_neg h0, if_neg h0,
      mul_comm ((ps.map (fun p =>
        (p.2 - (ps.map Prod.snd).sum / (ps.length : ℚ)) ^ 2)).sum)
        ((ps.map (fun p =>
        (p.1 - (ps.map Prod.fst).sum / (ps.length : ℚ)) ^ 2)).sum)]

theorem pearson_symm (x y : Series) (hx : (x.map Prod.fst).Nodup)
    (hy : (y.map Prod.fst).Nodup) : pearson x y = pearson y x := by
  have hperm : (obsVals x y).Perm ((obsVals y x).map (fun p => (p.2, p.1))) := by
    have h1 := (alignedObs_swap_perm x y hx hy).map
      (fun t : ℤ × ℚ × ℚ => (t.2.1, t.2.2))
    rw [obsVals, obsVals]
    rw [List.map_map] at h1
    rw [List.map_map]
    exact h1
  rw [pearson, pearson, (pearsonCore_perm hperm).trans
    (pearsonCore_map_swap (obsVals y x))]

theorem pearson_self (x : Series) (hx : (x.map Prod.fst).Nodup) :
    pearson x x = none ∨ pearson x x = some 1 := by
  have hobs : obsVals x x = x.map (fun p : ℤ × ℚ => (p.2, p.2)) := by
    rw [obsVals, alignedObs,
      filterMap_eq_map_of _ (fun p : ℤ × ℚ => (p.1, p.2, p.2)) _ (fun p hp => by
        rw [mem_lookup_eq_some hx (Prod.mk.eta ▸ hp : (p.1, p.2) ∈ x)]
        rfl),
      List.map_map]
    rfl
  have hfst : (x.map (fun p : ℤ × ℚ => (p.2, p.2))).map Prod.fst =
      x.map (fun p => p.2) := by
    rw [List.map_map]; rfl
  have hsnd : (x.map (fun p : ℤ × ℚ => (p.2, p.2))).map Prod.snd =
      x.map (fun p => p.2) := by
    rw [List.map_map]; rfl
  have hxx : ∀ A : ℚ, (x.map (fun p : ℤ × ℚ => (p.2, p.2))).map
      (fun p => (p.1 - A) ^ 2) = x.map (fun p => (p.2 - A) ^ 2) := by
    intro A; rw [List.map_map]; rfl
  have hyy : ∀ A : ℚ, (x.map (fun p : ℤ × ℚ => (p.2, p.2))).map
      (fun p => (p.2 - A) ^ 2) = x.map (fun p => (p.2 - A) ^ 2) := by
    intro A; rw [List.map_map]; rfl
  have hxy : ∀ A : ℚ, (x.map (fun p : ℤ × ℚ => (p.2, p.2))).map
      (fun p => (p.1 - A) * (p.2 - A)) = x.map (fun p => (p.2 - A) ^ 2) := by
    intro A
    rw [List.map_map]
    refine List.map_congr_left ?_
    intro p _
    show (p.2 - A) * (p.2 - A) = (p.2 - A) ^ 2
    ring
  rw [pearson, hobs]
  simp only [pearsonCore, List.length_map, hfst, hsnd, hxx, hyy, hxy]
  by_cases h0 : x.length = 0
  · rw [if_pos h0]
    exact Or.inl rfl
  · rw [if_neg h0]
    by_cases hS : (x.map (fun p =>
        (p.2 - (x.map (fun p : ℤ × ℚ => p.2)).sum / (x.length : ℚ)) ^ 2)).sum *
        (x.map (fun p =>
        (p.2 - (x.map (fun p : ℤ × ℚ => p.2)).sum / (x.length : ℚ)) ^ 2)).sum = 0
    · rw [if_pos hS]
      exact Or.inl rfl
    · rw [if_neg hS]
      right
      have hS0 : (x.map (fun p =>
          (p.2 - (x.map (fun p : ℤ × ℚ => p.2)).sum / (x.length : ℚ)) ^ 2)).sum ≠ 0 := by
        intro h
        exact hS (by rw [h, mul_zero])
      have hSnn : 0 ≤ (x.map (fun p =>
          (p.2 - (x.map (fun p : ℤ × ℚ => p.2)).sum / (x.length : ℚ)) ^ 2)).sum := by
        refine List.sum_nonneg ?_
        intro a ha
        obtain ⟨p, -, rfl⟩ := List.mem_map.mp ha
        positivity
      have hSpos : 0 < (x.map (fun p =>
          (p.2 - (x.map (fun p : ℤ × ℚ => p.2)).sum / (x.length : ℚ)) ^ 2)).sum :=
        lt_of_le_of_ne hSnn (Ne.symm hS0)
      rw [Option.map_some']
      congr 1
      rw [Rat.cast_mul, Real.sqrt_mul_self (by exact_mod_cast hSnn)]
      exact div_self (by exact_mod_cast hS0)

theorem filtered_series_mem {data : List (String × Series)} {s e : ℤ}
    {p : String × Series} (hp : p ∈ filtered_series data s e) :
    ∃ q ∈ data, p = (q.1, q.2.filter (fun t => decide (s ≤ t.1 ∧ t.1 ≤ e))) := by
  simp only [filtered_series, List.mem_filterMap] at hp
  obtain ⟨q, hq, hq2⟩ := hp
  split_ifs at hq2 with hemp
  exact ⟨q, hq, (Option.some.inj hq2).symm⟩

theorem filtered_series_dates_nodup {data : List (String × Series)} {s e : ℤ}
    (hdates : ∀ q ∈ data, (q.2.map Prod.fst).Nodup)
    {p : String × Series} (hp : p ∈ filtered_series data s e) :
    (p.2.map Prod.fst).Nodup := by
  obtain ⟨q, hq, rfl⟩ := filtered_series_mem hp
  exact ((List.filter_sublist _).map Prod.fst).nodup (hdates q hq)

theorem mentry_build (F : String → String → Cell) (l : List String) (i j : ℕ)
    (hi : i < l.length) (hj : j < l.length) :
    mentry (l.map (fun src => l.map (fun tgt => F src tgt))) i j =
      F (l.get ⟨i, hi⟩) (l.get ⟨j, hj⟩) := by
  rw [mentry]
  have h1 : (l.map (fun src => l.map (fun tgt => F src tgt))).getD i [] =
      l.map (fun tgt => F (l.get ⟨i, hi⟩) tgt) := by
    rw [List.getD_eq_getElem _ _ (by simpa using hi), List.getElem_map]
    rfl
  rw [h1, List.getD_eq_getElem _ _ (by simpa using hj), List.getElem_map]
  rfl

end Corr

namespace HighLT

theorem etf_value_of_zero (first r : EtfRow) (init : ℚ) (alloc : Alloc)
    (e : String) (h : aget alloc e = 0) : etf_value first r init alloc e = 0 := by
  rw [etf_value, if_pos h]

theorem etf_value_of_full (first r : EtfRow) (init : ℚ) (alloc : Alloc)
    (e : String) (hfull : aget alloc e = 100) (hp : 0 < price first e) :
    etf_value first r init alloc e = init * (price r e / price first e) := by
  rw [etf_value, if_neg (by rw [hfull]; norm_num), etf_norm, if_pos hp, hfull]
  ring

/-- C1: with a strictly positive first-row price for the single chosen
instrument, full weight (100) on it and weight 0 on the other three,
the total_value column is pointwise initial_investment times
price[t]/price[0] over the filtered rows. -/
theorem c1_single_full_weight_growth (first : EtfRow) (rest : List EtfRow)
    (init : ℚ) (alloc : Alloc) (etf : String) (hetf : etf ∈ etfs)
    (hp : 0 < price first etf) (hfull : aget alloc etf = 100)
    (hzero : ∀ x ∈ etfs, x ≠ etf → aget alloc x = 0) :
    total_values (first :: rest) init alloc =
      (first :: rest).map (fun r => init * (price r etf / price first etf)) := by
  rw [total_values]
  refine List.map_congr_left ?_
  intro r _
  fin_cases hetf
  · have h2 := hzero "GBTC" (by decide) (by decide)
    have h3 := hzero "BRK-B" (by decide) (by decide)
    have h4 := hzero "VUG" (by decide) (by decide)
    rw [total_value_row, etf_value_of_full first r init alloc _ hfull hp,
      etf_value_of_zero first r init alloc _ h2, etf_value_of_zero first r init alloc _ h3,
      etf_value_of_zero first r init alloc _ h4]
    ring
  · have h1 := hzero "SPY" (by decide) (by decide)
    have h3 := hzero "BRK-B" (by decide) (by decide)
    have h4 := hzero "VUG" (by decide) (by decide)
    rw [total_value_row, etf_value_of_full first r init alloc _ hfull hp,
      etf_value_of_zero first r init alloc _ h1, etf_value_of_zero first r init alloc _ h3,
      etf_value_of_zero first r init alloc _ h4]
    ring
  · have h1 := hzero "SPY" (by decide) (by decide)
    have h2 := hzero "GBTC" (by decide) (by decide)
    have h4 := hzero "VUG" (by decide) (by decide)
    rw [total_value_row, etf_value_of_full first r init alloc _ hfull hp,
      etf_value_of_zero first r init alloc _ h1, etf_value_of_zero first r init alloc _ h2,
      etf_value_of_zero first r init alloc _ h4]
    ring
  · have h1 := hzero "SPY" (by decide) (by decide)
    have h2 := hzero "GBTC" (by decide) (by decide)
    have h3 := hzero "BRK-B" (by decide) (by decide)
    rw [total_value_row, etf_value_of_full first r init alloc _ hfull hp,
      etf_value_of_zero first r init alloc _ h1, etf_value_of_zero first r init alloc _ h2,
      etf_value_of_zero first r init alloc _ h3]
    ring

/-- C1 witness: two rows, SPY at 100 then 110, 1000 invested fully in
SPY. -/
theorem c1_single_full_weight_growth_witness :
    total_values [⟨0, 100, 1, 1, 1⟩, ⟨1, 110, 1, 1, 1⟩] 1000 [("SPY", 100)] =
      [(⟨0, 100, 1, 1, 1⟩ : EtfRow), ⟨1, 110, 1, 1, 1⟩].map
        (fun r => 1000 * (price r "SPY" / price (⟨0, 100, 1, 1, 1⟩ : EtfRow) "SPY")) :=
  c1_single_full_weight_growth ⟨0, 100, 1, 1, 1⟩ [⟨1, 110, 1, 1, 1⟩] 1000
    [("SPY", 100)] "SPY" (by decide) (by decide) (by decide)
    (by intro x hx hne; fin_cases hx <;> first | rfl | exact absurd rfl hne)

/-- C2 (amended): the service accepts an allocation dict exactly when
its value sum is within the absolute tolerance 0.01 of 100; rejection
reports the computed sum as the InvalidAllocation payload before any
filtering or valuation, and an accepted dict is used as given, with no
rescaling, to build the value series. -/
theorem c2_allocation_validation (table : List EtfRow) (minD maxD : ℤ)
    (init : ℚ) (alloc : Alloc) (s e : ℤ) :
    ((∃ t, process_request_data table minD maxD init alloc s e =
        .error (.invalidAllocation t)) ↔ 1 / 100 < |allocSum alloc - 100|) ∧
    (∀ t, process_request_data table minD maxD init alloc s e =
        .error (.invalidAllocation t) → t = allocSum alloc) ∧
    (∀ out, process_request_data table minD maxD init alloc s e = .ok out →
        out.2.1 = total_values out.1 init alloc) := by
  by_cases hv : 1 / 100 < |allocSum alloc - 100|
  · have hres : process_request_data table minD maxD init alloc s e =
        .error (.invalidAllocation (allocSum alloc)) := by
      rw [process_request_data, if_pos hv]
    refine ⟨⟨fun _ => hv, fun _ => ⟨allocSum alloc, hres⟩⟩, ?_, ?_⟩
    · intro t ht
      rw [hres] at ht
      cases ht
      rfl
    · intro out hout
      rw [hres] at hout
      cases hout
  · rw [process_request_data, if_neg hv]
    by_cases hempty : (filter_data_by_date table minD maxD s e).1 = []
    · simp only [hempty, if_pos rfl]
      refine ⟨⟨fun ⟨t, ht⟩ => ?_, fun h => absurd h hv⟩, fun t ht => ?_, fun out hout => ?_⟩
      · simp at ht
      · simp at ht
      · simp at hout
    · simp only [if_neg hempty]
      refine ⟨⟨fun ⟨t, ht⟩ => ?_, fun h => absurd h hv⟩, fun t ht => ?_, fun out hout => ?_⟩
      · simp at ht
      · simp at ht
      · cases hout
        rfl

/-- C2 witness: a dict summing to 50 is rejected with the computed
sum. -/
theorem c2_allocation_validation_witness :
    process_request_data [] 0 0 10000 [("SPY", 50)] 0 0 =
      .error (.invalidAllocation 50) := by
  have h := c2_allocation_validation [] 0 0 10000 [("SPY", 50)] 0 0
  obtain ⟨t, ht⟩ := h.1.mpr (by norm_num [allocSum, abs])
  have h2 := h.2.1 t ht
  have h3 : allocSum [("SPY", (50 : ℚ))] = 50 := by norm_num [allocSum]
  rw [h2, h3] at ht
  exact ht

/-- C2 counterexample: weights summing to 99.5 are within the claimed
1-percent-of-total tolerance (deviation 0.5 <= 1) yet the service
rejects them, because the code compares the deviation against the
absolute constant 0.01. -/
theorem c2_allocation_validation_cex :
    process_request_data [⟨0, 100, 100, 100, 100⟩] 0 0 10000
        [("SPY", 199 / 2), ("GBTC", 0), ("BRK-B", 0), ("VUG", 0)] 0 0 =
      .error (.invalidAllocation (199 / 2)) ∧ |(199 / 2 : ℚ) - 100| ≤ 1 := by
  constructor
  · have hv : (1 / 100 : ℚ) <
        |allocSum [("SPY", 199 / 2), ("GBTC", 0), ("BRK-B", 0), ("VUG", 0)] - 100| := by
      norm_num [allocSum, abs]
    rw [process_request_data, if_pos hv]
    norm_num [allocSum]
  · norm_num [abs]

/-- C10: an instrument with a strictly positive allocation whose close
price on the first date of the range is 0 or negative gets the constant
normalized growth factor 1.0, so its value column is the constant
initial allocation and no division by the first price happens. -/
theorem c10_nonpositive_first_price (first r : EtfRow) (init : ℚ)
    (alloc : Alloc) (etf : String) (hetf : etf ∈ etfs)
    (hw : 0 < aget alloc etf) (hp : price first etf ≤ 0) :
    etf_norm first r etf = 1 ∧
      etf_value first r init alloc etf = init * (aget alloc etf / 100) := by
  have hn : etf_norm first r etf = 1 := by
    rw [etf_norm, if_neg (not_lt.mpr hp)]
  refine ⟨hn, ?_⟩
  rw [etf_value, if_neg (ne_of_gt hw), hn, mul_one]

end HighLT

theorem cummax_go_forall2 (acc : ℚ) (l : List ℚ) :
    List.Forall₂ (· ≤ ·) l (cummax_go acc l) := by
  induction l generalizing acc with
  | nil => exact .nil
  | cons x xs ih => exact .cons (le_max_right acc x) (ih (max acc x))

theorem cummax_forall2 (l : List ℚ) : List.Forall₂ (· ≤ ·) l (cummax l) := by
  cases l with
  | nil => exact .nil
  | cons x xs => exact .cons le_rfl (cummax_go_forall2 x xs)

theorem cummax_go_chain (acc : ℚ) (l : List ℚ) :
    List.Chain (· ≤ ·) acc (cummax_go acc l) := by
  induction l generalizing acc with
  | nil => exact .nil
  | cons x xs ih => exact .cons (le_max_left acc x) (ih (max acc x))

theorem cummax_chain (l : List ℚ) : List.Chain' (· ≤ ·) (cummax l) := by
  cases l with
  | nil => exact trivial
  | cons x xs => exact cummax_go_chain x xs

theorem cummax_go_pos (acc : ℚ) (l : List ℚ) (ha : 0 < acc)
    (hl : ∀ x ∈ l, 0 < x) : ∀ y ∈ cummax_go acc l, 0 < y := by
  induction l generalizing acc with
  | nil => intro y hy; simp [cummax_go] at hy
  | cons x xs ih =>
    intro y hy
    rw [cummax_go] at hy
    rcases List.mem_cons.mp hy with h | h
    · exact h ▸ lt_max_of_lt_left ha
    · exact ih (max acc x) (lt_max_of_lt_left ha)
        (fun z hz => hl z (List.mem_cons_of_mem x hz)) y h

theorem cummax_pos (l : List ℚ) (hl : ∀ x ∈ l, 0 < x) :
    ∀ y ∈ cummax l, 0 < y := by
  cases l with
  | nil => intro y hy; simp [cummax] at hy
  | cons x xs =>
    intro y hy
    rw [cummax] at hy
    rcases List.mem_cons.mp hy with h | h
    · exact h ▸ hl x (List.mem_cons_self x xs)
    · exact cummax_go_pos x xs (hl x (List.mem_cons_self x xs))
        (fun z hz => hl z (List.mem_cons_of_mem x hz)) y h

theorem drawdowns_nonpos (l : List ℚ) (hl : ∀ x ∈ l, 0 < x) :
    ∀ d ∈ drawdowns l, d ≤ 0 := by
  intro d hd
  rw [drawdowns] at hd
  obtain ⟨i, hi, rfl⟩ := List.mem_iff_get.mp hd
  rw [List.get_eq_getElem, List.getElem_zipWith]
  have hil : (i : ℕ) < l.length := lt_of_lt_of_le i.isLt
    (by rw [List.length_zipWith]; exact min_le_left _ _)
  have hic : (i : ℕ) < (cummax l).length := lt_of_lt_of_le i.isLt
    (by rw [List.length_zipWith]; exact min_le_right _ _)
  have hle : l[(i : ℕ)] ≤ (cummax l)[(i : ℕ)] := by
    obtain ⟨-, h⟩ := List.forall₂_iff_get.mp (cummax_forall2 l)
    exact h i hil hic
  have hpk : 0 < (cummax l)[(i : ℕ)] :=
    cummax_pos l hl _ (List.getElem_mem hic)
  exact div_nonpos_iff.mpr (Or.inr ⟨sub_nonpos.mpr hle, le_of_lt hpk⟩)

namespace HighLT

theorem etf_norm_pos (first r : EtfRow) (e : String) (hrp : 0 < price r e) :
    0 < etf_norm first r e := by
  rw [etf_norm]
  split_ifs with h
  · exact div_pos hrp h
  · exact one_pos

theorem etf_value_nonneg (first r : EtfRow) (init : ℚ) (alloc : Alloc)
    (e : String) (hinit : 0 < init) (hw : 0 ≤ aget alloc e)
    (hrp : 0 < price r e) : 0 ≤ etf_value first r init alloc e := by
  rw [etf_value]
  split_ifs with h
  · exact le_rfl
  · exact le_of_lt (mul_pos (mul_pos hinit (div_pos (lt_of_le_of_ne hw (Ne.symm h))
      (by norm_num))) (etf_norm_pos first r e hrp))

theorem etf_value_pos (first r : EtfRow) (init : ℚ) (alloc : Alloc)
    (e : String) (hinit : 0 < init) (hw : 0 < aget alloc e)
    (hrp : 0 < price r e) : 0 < etf_value first r init alloc e := by
  rw [etf_value, if_neg (ne_of_gt hw)]
  exact mul_pos (mul_pos hinit (div_pos hw (by norm_num))) (etf_norm_pos first r e hrp)

theorem total_value_row_pos (first r : EtfRow) (init : ℚ) (alloc : Alloc)
    (hinit : 0 < init) (hw : ∀ x ∈ etfs, 0 ≤ aget alloc x)
    (hsum : 0 < fourSum alloc) (hrp : ∀ x ∈ etfs, 0 < price r x) :
    0 < total_value_row first r init alloc := by
  have w1 := hw "SPY" (by decide)
  have w2 := hw "GBTC" (by decide)
  have w3 := hw "BRK-B" (by decide)
  have w4 := hw "VUG" (by decide)
  have p1 := hrp "SPY" (by decide)
  have p2 := hrp "GBTC" (by decide)
  have p3 := hrp "BRK-B" (by decide)
  have p4 := hrp "VUG" (by decide)
  have n1 := etf_value_nonneg first r init alloc "SPY" hinit w1 p1
  have n2 := etf_value_nonneg first r init alloc "GBTC" hinit w2 p2
  have n3 := etf_value_nonneg first r init alloc "BRK-B" hinit w3 p3
  have n4 := etf_value_nonneg first r init alloc "VUG" hinit w4 p4
  have hfs : fourSum alloc = aget alloc "SPY" + aget alloc "GBTC" +
      aget alloc "BRK-B" + aget alloc "VUG" := by
    simp [fourSum, etfs]
    ring
  have hex : 0 < aget alloc "SPY" ∨ 0 < aget alloc "GBTC" ∨
      0 < aget alloc "BRK-B" ∨ 0 < aget alloc "VUG" := by
    by_contra hcon
    push_neg at hcon
    obtain ⟨c1, c2, c3, c4⟩ := hcon
    rw [hfs] at hsum
    linarith
  rw [total_value_row]
  rcases hex with h | h | h | h
  · have := etf_value_pos first r init alloc "SPY" hinit h p1
    linarith
  · have := etf_value_pos first r init alloc "GBTC" hinit h p2
    linarith
  · have := etf_value_pos first r init alloc "BRK-B" hinit h p3
    linarith
  · have := etf_value_pos first r init alloc "VUG" hinit h p4
    linarith

theorem total_values_pos (first : EtfRow) (rest : List EtfRow) (init : ℚ)
    (alloc : Alloc) (hinit : 0 < init) (hw : ∀ x ∈ etfs, 0 ≤ aget alloc x)
    (hsum : 0 < fourSum alloc)
    (hp : ∀ r ∈ first :: rest, ∀ x ∈ etfs, 0 < price r x) :
    ∀ v ∈ total_values (first :: rest) init alloc, 0 < v := by
  intro v hv
  rw [total_values] at hv
  obtain ⟨r, hr, rfl⟩ := List.mem_map.mp hv
  exact total_value_row_pos first r init alloc hinit hw hsum (hp r hr)

/-- C3 (amended): for a series built from strictly positive prices, a
valid non-negative allocation with positive combined weight on the four
instruments, and a strictly positive initial investment, every
total_value entry stays below its running peak, the peak column is
non-decreasing, and every drawdown entry is at most 0. -/
theorem c3_portfolio_invariants (first : EtfRow) (rest : List EtfRow)
    (init : ℚ) (alloc : Alloc) (hinit : 0 < init)
    (hw : ∀ x ∈ etfs, 0 ≤ aget alloc x) (hsum : 0 < fourSum alloc)
    (hp : ∀ r ∈ first :: rest, ∀ x ∈ etfs, 0 < price r x) :
    List.Forall₂ (· ≤ ·) (total_values (first :: rest) init alloc)
      (cummax (total_values (first :: rest) init alloc)) ∧
    List.Chain' (· ≤ ·) (cummax (total_values (first :: rest) init alloc)) ∧
    (∀ d ∈ drawdowns (total_values (first :: rest) init alloc), d ≤ 0) :=
  ⟨cummax_forall2 _, cummax_chain _,
    drawdowns_nonpos _ (total_values_pos first rest init alloc hinit hw hsum hp)⟩

/-- C3 witness: an equal-weight portfolio over two rows of positive
prices has a non-decreasing peak column. -/
theorem c3_portfolio_invariants_witness :
    List.Chain' (· ≤ ·) (cummax (total_values
      [⟨0, 100, 100, 100, 100⟩, ⟨1, 90, 95, 105, 100⟩]
      10000 [("SPY", 25), ("GBTC", 25), ("BRK-B", 25), ("VUG", 25)])) :=
  (c3_portfolio_invariants ⟨0, 100, 100, 100, 100⟩ [⟨1, 90, 95, 105, 100⟩] 10000
    [("SPY", 25), ("GBTC", 25), ("BRK-B", 25), ("VUG", 25)] (by decide)
    (by decide)
    (by
      have h1 : aget [("SPY", (25 : ℚ)), ("GBTC", 25), ("BRK-B", 25), ("VUG", 25)]
          "SPY" = 25 := rfl
      have h2 : aget [("SPY", (25 : ℚ)), ("GBTC", 25), ("BRK-B", 25), ("VUG", 25)]
          "GBTC" = 25 := rfl
      have h3 : aget [("SPY", (25 : ℚ)), ("GBTC", 25), ("BRK-B", 25), ("VUG", 25)]
          "BRK-B" = 25 := rfl
      have h4 : aget [("SPY", (25 : ℚ)), ("GBTC", 25), ("BRK-B", 25), ("VUG", 25)]
          "VUG" = 25 := rfl
      norm_num [fourSum, etfs, h1, h2, h3, h4])
    (by decide)).2.1

/-- C3 counterexample: with a negative initial investment, positive
prices, and the valid full-weight allocation on SPY, the drawdown
column of the computed series contains the strictly positive entry 2/9,
so the claim without a sign restriction on initial_investment fails. -/
theorem c3_portfolio_invariants_cex :
    (drawdowns (total_values [⟨0, 100, 1, 1, 1⟩, ⟨1, 90, 1, 1, 1⟩, ⟨2, 110, 1, 1, 1⟩]
        (-1000) [("SPY", 100)])).length = 3 ∧
    (0 : ℚ) < (drawdowns (total_values [⟨0, 100, 1, 1, 1⟩, ⟨1, 90, 1, 1, 1⟩,
        ⟨2, 110, 1, 1, 1⟩] (-1000) [("SPY", 100)])).getD 2 0 := by
  have hfull : aget [("SPY", (100 : ℚ))] "SPY" = 100 := rfl
  have hz2 : aget [("SPY", (100 : ℚ))] "GBTC" = 0 := rfl
  have hz3 : aget [("SPY", (100 : ℚ))] "BRK-B" = 0 := rfl
  have hz4 : aget [("SPY", (100 : ℚ))] "VUG" = 0 := rfl
  have hrow : ∀ r : EtfRow, total_value_row ⟨0, 100, 1, 1, 1⟩ r (-1000)
      [("SPY", 100)] = -1000 * (price r "SPY" / 100) := by
    intro r
    rw [total_value_row, etf_value_of_full _ _ _ _ _ hfull (by decide),
      etf_value_of_zero _ _ _ _ _ hz2, etf_value_of_zero _ _ _ _ _ hz3,
      etf_value_of_zero _ _ _ _ _ hz4]
    norm_num [price]
  have h1 : total_values [⟨0, 100, 1, 1, 1⟩, ⟨1, 90, 1, 1, 1⟩, ⟨2, 110, 1, 1, 1⟩]
      (-1000) [("SPY", 100)] = [-1000, -900, -1100] := by
    rw [total_values]
    simp only [List.map, hrow]
    norm_num [price]
  have h2 : cummax [(-1000 : ℚ), -900, -1100] = [-1000, -900, -900] := by
    rw [cummax, cummax_go, cummax_go, cummax_go]
    norm_num [max_def]
  rw [drawdowns, h1, h2]
  norm_num

end HighLT

namespace HighLT

/-- C10 witness: SPY first price 0, weight 100, 500 invested; the
factor is 1 and the SPY value cell is the 500 allocated to it. -/
theorem c10_nonpositive_first_price_witness :
    etf_norm ⟨0, 0, 1, 1, 1⟩ ⟨1, 50, 1, 1, 1⟩ "SPY" = 1 ∧
      etf_value ⟨0, 0, 1, 1, 1⟩ ⟨1, 50, 1, 1, 1⟩ 500 [("SPY", 100)] "SPY" =
        500 * (aget [("SPY", 100)] "SPY" / 100) :=
  c10_nonpositive_first_price ⟨0, 0, 1, 1, 1⟩ ⟨1, 50, 1, 1, 1⟩ 500
    [("SPY", 100)] "SPY" (by decide) (by decide) (by decide)

end HighLT

namespace Corr

/-- C8: when fewer than two requested instruments survive the date
filter with data, calculate_correlation_matrix still answers, with the
degenerate matrix over the full requested id list in order: 1.0 on the
diagonal, 0.0 off it. -/
theorem c8_degenerate_correlation_matrix (data : List (String × Series))
    (etfs : List String) (s e : ℤ)
    (hfew : (filtered_series data s e).length < 2) (hnd : etfs.Nodup)
    (i j : ℕ) (hi : i < etfs.length) (hj : j < etfs.length) :
    mentry (calculate_correlation_matrix data etfs s e) i j =
      ⟨etfs.get ⟨i, hi⟩, etfs.get ⟨j, hj⟩, if i = j then 1 else 0⟩ := by
  simp only [calculate_correlation_matrix]
  rw [if_neg (by omega : ¬ 2 ≤ (filtered_series data s e).length)]
  rw [mentry_build _ _ _ _ hi hj]
  have hiff : (etfs.get ⟨i, hi⟩ = etfs.get ⟨j, hj⟩) ↔ i = j := by
    constructor
    · intro h
      have h2 := (List.Nodup.get_inj_iff hnd).mp h
      simpa using h2
    · intro h
      subst h
      rfl
  simp only [Cell.mk.injEq, true_and]
  rw [if_congr hiff rfl rfl]

/-- C8 witness: a single-id request over an empty store yields the 1x1
matrix holding exactly 1.0. -/
theorem c8_degenerate_correlation_matrix_witness :
    mentry (calculate_correlation_matrix [] ["A"] 0 0) 0 0 = ⟨"A", "A", 1⟩ := by
  rw [c8_degenerate_correlation_matrix [] ["A"] 0 0 (by decide) (by decide)
    0 0 (by decide) (by decide)]
  rfl

/-- C7 (amended): every correlation matrix cell is symmetric,
correlation[i][j] = correlation[j][i]; each diagonal cell is 1.0 or
0.0, the 0.0 arising exactly when the instrument's in-range pairwise
self-correlation is the NaN of a zero-variance series, which the code
reports as 0.0 instead of 1.0. -/
theorem c7_correlation_matrix_symmetric (data : List (String × Series))
    (etfs : List String) (s e : ℤ)
    (hdates : ∀ q ∈ data, (q.2.map Prod.fst).Nodup)
    (i j : ℕ) (hi : i < etfs.length) (hj : j < etfs.length) :
    (mentry (calculate_correlation_matrix data etfs s e) i j).correlation =
      (mentry (calculate_correlation_matrix data etfs s e) j i).correlation ∧
    ((mentry (calculate_correlation_matrix data etfs s e) i i).correlation = 1 ∨
      (mentry (calculate_correlation_matrix data etfs s e) i i).correlation = 0) := by
  simp only [calculate_correlation_matrix]
  by_cases hfs : 2 ≤ (filtered_series data s e).length
  · rw [if_pos hfs, mentry_build _ _ i j hi hj, mentry_build _ _ j i hj hi,
      mentry_build _ _ i i hi hi]
    constructor
    · rcases hsx : (filtered_series data s e).lookup (etfs.get ⟨i, hi⟩) with _ | sx <;>
        rcases hsy : (filtered_series data s e).lookup (etfs.get ⟨j, hj⟩) with _ | sy <;>
        simp only [hsx, hsy]
      · rcases eq_or_ne (etfs.get ⟨i, hi⟩) (etfs.get ⟨j, hj⟩) with h | h
        · rw [if_pos h, if_pos h.symm]
        · rw [if_neg h, if_neg (Ne.symm h)]
      · rcases eq_or_ne (etfs.get ⟨i, hi⟩) (etfs.get ⟨j, hj⟩) with h | h
        · rw [if_pos h, if_pos h.symm]
        · rw [if_neg h, if_neg (Ne.symm h)]
      · rcases eq_or_ne (etfs.get ⟨i, hi⟩) (etfs.get ⟨j, hj⟩) with h | h
        · rw [if_pos h, if_pos h.symm]
        · rw [if_neg h, if_neg (Ne.symm h)]
      · have hndx : (sx.map Prod.fst).Nodup :=
          filtered_series_dates_nodup hdates (lookup_eq_some_mem hsx)
        have hndy : (sy.map Prod.fst).Nodup :=
          filtered_series_dates_nodup hdates (lookup_eq_some_mem hsy)
        show (pearson sx sy).getD 0 = (pearson sy sx).getD 0
        rw [pearson_symm sx sy hndx hndy]
    · rcases hsx : (filtered_series data s e).lookup (etfs.get ⟨i, hi⟩) with _ | sx <;>
        simp only [hsx]
      · left
        simp
      · have hndx : (sx.map Prod.fst).Nodup :=
          filtered_series_dates_nodup hdates (lookup_eq_some_mem hsx)
        rcases pearson_self sx hndx with h | h
        · right
          show (pearson sx sx).getD 0 = 0
          rw [h]
          rfl
        · left
          show (pearson sx sx).getD 0 = 1
          rw [h]
          rfl
  · rw [if_neg hfs, mentry_build _ _ i j hi hj, mentry_build _ _ j i hj hi,
      mentry_build _ _ i i hi hi]
    refine ⟨?_, Or.inl (by rw [if_pos rfl])⟩
    rcases eq_or_ne (etfs.get ⟨i, hi⟩) (etfs.get ⟨j, hj⟩) with h | h
    · show (if _ = _ then (1 : ℝ) else 0) = if _ = _ then 1 else 0
      rw [if_pos h, if_pos h.symm]
    · show (if _ = _ then (1 : ℝ) else 0) = if _ = _ then 1 else 0
      rw [if_neg h, if_neg (Ne.symm h)]

/-- C7 witness: two overlapping non-constant series give a symmetric
matrix with defined diagonal. -/
theorem c7_correlation_matrix_symmetric_witness :
    (mentry (calculate_correlation_matrix
        [("A", [(0, 1), (1, 2)]), ("B", [(0, 2), (1, 1)])] ["A", "B"] 0 1)
      0 1).correlation =
    (mentry (calculate_correlation_matrix
        [("A", [(0, 1), (1, 2)]), ("B", [(0, 2), (1, 1)])] ["A", "B"] 0 1)
      1 0).correlation :=
  (c7_correlation_matrix_symmetric
    [("A", [(0, 1), (1, 2)]), ("B", [(0, 2), (1, 1)])] ["A", "B"] 0 1
    (by
      intro q hq
      fin_cases hq <;> decide)
    0 1 (by decide) (by decide)).1

/-- C7 counterexample: instrument A has the constant in-range price 1,
so pandas reports its self-correlation as NaN and the service replaces
it by 0.0: the diagonal cell (A, A) of the computed matrix is 0.0, not
the claimed 1.0. -/
theorem c7_correlation_matrix_diagonal_cex :
    (mentry (calculate_correlation_matrix
        [("A", [(0, 1), (1, 1)]), ("B", [(0, 1), (1, 2)])] ["A", "B"] 0 1)
      0 0).correlation = 0 ∧ (0 : ℝ) ≠ 1 := by
  constructor
  · have hfs : filtered_series [("A", [(0, 1), (1, 1)]), ("B", [(0, 1), (1, 2)])] 0 1 =
        [("A", [(0, 1), (1, 1)]), ("B", [(0, 1), (1, 2)])] := rfl
    simp only [calculate_correlation_matrix, hfs]
    rw [if_pos (by decide : 2 ≤ ([("A", [((0 : ℤ), (1 : ℚ)), (1, 1)]),
      ("B", [(0, 1), (1, 2)])] : List (String × Series)).length)]
    rw [mentry_build _ _ 0 0 (by decide) (by decide)]
    have hlk : ([("A", [((0 : ℤ), (1 : ℚ)), (1, 1)]),
        ("B", [(0, 1), (1, 2)])] : List (String × Series)).lookup
        (["A", "B"].get ⟨0, by decide⟩) = some [(0, 1), (1, 1)] := rfl
    simp only [hlk]
    show (pearson [(0, 1), (1, 1)] [(0, 1), (1, 1)]).getD 0 = 0
    have hob : obsVals [((0 : ℤ), (1 : ℚ)), (1, 1)] [(0, 1), (1, 1)] =
        [(1, 1), (1, 1)] := rfl
    have hcore : pearsonCore ([((1 : ℚ), (1 : ℚ)), (1, 1)]) = none := by
      simp only [pearsonCore]
      norm_num
    rw [pearson, hob, hcore]
    rfl
  · norm_num

end Corr
